import Mathlib

/-!
Shallow embedding of the kvozy binding engine (src/src/bindValue.ts).

JavaScript exceptions are modelled with the Except monad over a unit error
type: a function that may throw returns Except Unit α, and a try/catch block
is a match on that result.  Mutable state (the storage backend and the
binding's fields) is passed explicitly.  The duck-typed Storage backend is a
record of possibly-throwing operations over an abstract state type σ; the
default in-memory Map backend is an association list instance that never
throws.  Subscriber callbacks are identified by numeric ids; invoking the
subscribers is modelled by returning the list of (id, argument) calls an
operation performs.
-/

namespace Kvozy

/-- Result of a possibly-throwing JavaScript computation. -/
abbrev JS (α : Type) := Except Unit α

/-- Duck-typed Storage backend over state type σ (getItem / setItem /
removeItem, each of which a concrete backend may implement with code that
throws). -/
structure StoreOps (σ : Type) where
  getItem : σ → String → JS (Option String)
  setItem : σ → String → String → JS σ
  removeItem : σ → String → JS σ

/-- Association-list lookup, modelling Map.get (last write wins since
listSet overwrites in place). -/
def listGet : List (String × String) → String → Option String
  | [], _ => none
  | (k, v) :: rest, key => if k == key then some v else listGet rest key

/-- Association-list overwrite-or-append, modelling Map.set. -/
def listSet : List (String × String) → String → String → List (String × String)
  | [], key, val => [(key, val)]
  | (k, v) :: rest, key, val =>
    if k == key then (key, val) :: rest else (k, v) :: listSet rest key val

/-- Association-list removal, modelling Map.delete. -/
def listRemove : List (String × String) → String → List (String × String)
  | [], _ => []
  | (k, v) :: rest, key =>
    if k == key then listRemove rest key else (k, v) :: listRemove rest key

/-- State of the in-memory Map storage backend. -/
abbrev MemState := List (String × String)

/-- The in-memory storage backend (inMemoryStorage in the source): plain map
operations, never throws. -/
def memStore : StoreOps MemState where
  getItem s key := Except.ok (listGet s key)
  setItem s key val := Except.ok (listSet s key val)
  removeItem s key := Except.ok (listRemove s key)

/-- Configuration of one binding (BindValueOptions in the source).
serialize / deserialize / migrate are user-supplied and may throw. -/
structure BindValueOptions (T : Type) where
  key : String
  defaultValue : T
  serialize : T → JS String
  deserialize : String → JS T
  version : Option String := none
  migrate : Option (String → Option String → JS T) := none

/-- Mutable fields of a BindValue instance: the cached value and the
subscriber set (callback identities; the source uses a Set keyed by
reference identity). -/
structure Binding (T : Type) where
  value : T
  subscribers : List Nat
deriving DecidableEq

/-- JavaScript truthiness of an optional string: undefined and the empty
string are falsy (the source tests the version with a bare if (version)). -/
def truthy : Option String → Bool
  | none => false
  | some s => !(s == "")

/-- Split a character list at every NUL, mirroring String.prototype.split
with separator NUL. -/
def splitNulAux : List Char → List Char → List (List Char)
  | [], acc => [acc.reverse]
  | c :: cs, acc =>
    if c == '\x00' then acc.reverse :: splitNulAux cs []
    else splitNulAux cs (c :: acc)

/-- rawValue.split NUL from the source. -/
def splitNul (s : String) : List String :=
  (splitNulAux s.data []).map String.mk

/-- parts.join NUL from the source. -/
def joinNul : List String → String
  | [] => ""
  | [s] => s
  | s :: rest => s ++ "\x00" ++ joinNul rest

/-- rawValue.startsWith NUL from the source. -/
def startsWithNul (s : String) : Bool :=
  match s.data with
  | c :: _ => c == '\x00'
  | [] => false

/-- Version-envelope parsing shared by loadFromStorage: returns the stored
version (if any) and the serialized payload (parts 2.. rejoined with NUL). -/
def parseEnvelope (raw : String) : Option String × String :=
  if startsWithNul raw then
    let parts := splitNul raw
    if parts.length ≥ 3 then
      (some (parts.getD 1 ""), joinNul (parts.drop 2))
    else (none, raw)
  else (none, raw)

/-- Envelope construction used by saveToStorage and setRaw: NUL + version +
NUL + payload when the version is truthy, the bare payload otherwise. -/
def wrap (version : Option String) (ser : String) : String :=
  match version with
  | some v => if v == "" then ser else "\x00" ++ v ++ "\x00" ++ ser
  | none => ser

variable {σ : Type} {T : Type}

/-- Body of saveToStorage's try block: serialize, wrap, setItem; any throw
escapes to the catch. -/
def saveAttempt (st : StoreOps σ) (o : BindValueOptions T) (s : σ) (v : T) :
    JS σ :=
  match o.serialize v with
  | Except.error e => Except.error e
  | Except.ok ser => st.setItem s o.key (wrap o.version ser)

/-- saveToStorage from the source: the whole body sits in a try whose catch
is empty, so serialize and setItem failures alike leave the store state
unchanged and nothing propagates. -/
def saveToStorage (st : StoreOps σ) (o : BindValueOptions T) (s : σ) (v : T) :
    σ :=
  match saveAttempt st o s v with
  | Except.ok s' => s'
  | Except.error _ => s

/-- notifySubscribers from the source: call every subscriber with the
current cached value; returns the list of performed calls. -/
def notifySubscribers (b : Binding T) : List (Nat × T) :=
  b.subscribers.map (fun i => (i, b.value))

/-- loadFromStorage from the source, run once at construction: returns the
initial cached value and the resulting store state; getItem and removeItem
throws propagate (they sit outside every try), while deserialize, migrate
and the migration save path are caught. -/
def loadFromStorage (st : StoreOps σ) (o : BindValueOptions T) (s : σ) :
    JS (T × σ) :=
  match st.getItem s o.key with
  | Except.error e => Except.error e
  | Except.ok none => Except.ok (o.defaultValue, s)
  | Except.ok (some raw) =>
    if (parseEnvelope raw).1 ≠ o.version then
      match o.migrate with
      | some mig =>
        match mig (parseEnvelope raw).2 (parseEnvelope raw).1 with
        | Except.ok mv => Except.ok (mv, saveToStorage st o s mv)
        | Except.error _ =>
          match st.removeItem s o.key with
          | Except.ok s' => Except.ok (o.defaultValue, s')
          | Except.error e => Except.error e
      | none =>
        match st.removeItem s o.key with
        | Except.ok s' => Except.ok (o.defaultValue, s')
        | Except.error e => Except.error e
    else
      match o.deserialize (parseEnvelope raw).2 with
      | Except.ok v => Except.ok (v, s)
      | Except.error _ => Except.ok (o.defaultValue, s)

/-- BindValue construction: loadFromStorage populates the cached value and
the subscriber set starts empty; store throws propagate to the caller. -/
def construct (st : StoreOps σ) (o : BindValueOptions T) (s : σ) :
    JS (Binding T × σ) :=
  match loadFromStorage st o s with
  | Except.ok r => Except.ok (⟨r.1, []⟩, r.2)
  | Except.error e => Except.error e

/-- getValue from the source: a pure cache read. -/
def getValue (b : Binding T) : T :=
  b.value

/-- set from the source: update the cache, best-effort save (self-catching),
then notify; the returned list is the subscriber calls performed. -/
def set (st : StoreOps σ) (o : BindValueOptions T) (b : Binding T) (s : σ)
    (v : T) : JS (Binding T × σ × List (Nat × T)) :=
  Except.ok ({ b with value := v }, saveToStorage st o s v,
    notifySubscribers { b with value := v })

/-- subscribe from the source: add the callback to the identity-keyed set
(a duplicate reference collapses); no call is made at registration, hence
the empty call list. -/
def subscribe (b : Binding T) (cb : Nat) : Binding T × List (Nat × T) :=
  ({ b with
      subscribers :=
        if cb ∈ b.subscribers then b.subscribers else b.subscribers ++ [cb] },
    [])

/-- getRaw from the source: read the store verbatim; a backend throw
propagates. -/
def getRaw (st : StoreOps σ) (o : BindValueOptions T) (s : σ) :
    JS (Option String) :=
  st.getItem s o.key

/-- Version-gate and payload extraction at the top of setRaw: none means an
early return (no mutation). -/
def extractPayload (version : Option String) (raw : String) : Option String :=
  if truthy version then
    let ver := version.getD ""
    if !startsWithNul raw then none
    else
      let parts := splitNul raw
      if parts.length < 3 then none
      else if parts.getD 1 "" == ver then
        some (joinNul (parts.drop 2))
      else none
  else some raw

/-- setRaw from the source: version gate, guarded deserialize (caught),
round-trip re-serialize (NOT caught: a serialize throw propagates), byte
comparison, then store write (setItem throw propagates), cache update and
notification. -/
def setRaw (st : StoreOps σ) (o : BindValueOptions T) (b : Binding T) (s : σ)
    (raw : String) : JS (Binding T × σ × List (Nat × T)) :=
  match extractPayload o.version raw with
  | none => Except.ok (b, s, [])
  | some payload =>
    match o.deserialize payload with
    | Except.error _ => Except.ok (b, s, [])
    | Except.ok d =>
      match o.serialize d with
      | Except.error e => Except.error e
      | Except.ok ser =>
        if wrap o.version ser ≠ raw then Except.ok (b, s, [])
        else
          match st.setItem s o.key raw with
          | Except.error e => Except.error e
          | Except.ok s' =>
            Except.ok ({ b with value := d }, s',
              notifySubscribers { b with value := d })

/-! Concrete codecs and configurations used to instantiate the theorems. -/

/-- Decimal rendering of a natural number (the behaviour of the String
constructor applied to a JS number in the test scenarios). -/
def natToStrAux : Nat → Nat → List Char → List Char
  | 0, _, acc => acc
  | fuel+1, n, acc =>
    let d := Char.ofNat (48 + n % 10)
    if n < 10 then d :: acc else natToStrAux fuel (n / 10) (d :: acc)

/-- Decimal rendering of a natural number as a string. -/
def natToStr (n : Nat) : String := String.mk (natToStrAux (n+1) n [])

/-- Decimal parsing of a digit string (the behaviour of Number on the
payloads appearing in the test scenarios). -/
def digitsToNat : List Char → Nat → Nat
  | [], acc => acc
  | c :: cs, acc => digitsToNat cs (acc * 10 + (c.toNat - 48))

/-- Decimal parsing of a string as a natural number. -/
def strToNat (s : String) : Nat := digitsToNat s.data 0

/-- Unversioned Nat binding with a decimal codec. -/
def natOpts : BindValueOptions Nat where
  key := "k"
  defaultValue := 0
  serialize := fun n => Except.ok (natToStr n)
  deserialize := fun s => Except.ok (strToNat s)

/-- Nat binding whose serialize always throws. -/
def failSerOpts : BindValueOptions Nat where
  key := "k"
  defaultValue := 0
  serialize := fun _ => Except.error ()
  deserialize := fun s => Except.ok (strToNat s)

/-- Unversioned String binding with the identity codec. -/
def strOpts : BindValueOptions String where
  key := "k"
  defaultValue := "d"
  serialize := fun s => Except.ok s
  deserialize := fun s => Except.ok s

/-- In-memory backend whose setItem always throws (a quota-exceeded
stand-in). -/
def throwingSetStore : StoreOps MemState :=
  { memStore with setItem := fun _ _ _ => Except.error () }

/-- In-memory backend whose getItem always throws. -/
def throwingGetStore : StoreOps MemState :=
  { memStore with getItem := fun _ _ => Except.error () }

/-! Claims. -/

/-- C1: for every binding and every value v, set v followed by getValue
returns v, whatever serialize (or the backend's setItem) does during the
persist step — the universal quantification over the options covers both a
succeeding and a throwing serialize. -/
theorem set_then_getValue (st : StoreOps σ) (o : BindValueOptions T)
    (b : Binding T) (s : σ) (v : T) :
    ∃ b' s' calls, set st o b s v = Except.ok (b', s', calls) ∧
      getValue b' = v :=
  ⟨{ b with value := v }, saveToStorage st o s v,
    notifySubscribers { b with value := v }, rfl, rfl⟩

/-- C4: with the store holding the 0.9-versioned payload 100 and a binding
configured with version 1.0 and migrate doubling the numeric payload,
construction yields cached value 200 and re-persists the freshly versioned
envelope NUL 1.0 NUL 200. -/
theorem versionMismatchMigrate_concrete :
    construct memStore
        { natOpts with
          version := some "1.0",
          migrate := some (fun old _ => Except.ok (2 * strToNat old)) }
        [("k", "\x000.9\x00100")] =
      Except.ok (⟨200, []⟩, [("k", "\x001.0\x00200")]) ∧
    getValue (⟨200, []⟩ : Binding Nat) = 200 :=
  ⟨rfl, rfl⟩

/-- C2 counterexample: with a backend whose setItem throws, set 5 does NOT
propagate the exception — it completes normally with the store state
untouched, because saveToStorage's try/catch encloses the setItem call. The
claim asserts the exception reaches the caller of set. -/
theorem backendSetThrow_not_propagated :
    set throwingSetStore natOpts ⟨0, []⟩ [] 5 =
      Except.ok (⟨5, []⟩, [], []) :=
  rfl

/-- C2 amended: a getItem throw during construction does propagate to the
constructor's caller, but a setItem throw during set is swallowed by the
save path's catch-all and set completes normally. -/
theorem backendErrors_amended (st : StoreOps σ) (o : BindValueOptions T)
    (s : σ) (b : Binding T) (v : T)
    (h : st.getItem s o.key = Except.error ()) :
    construct st o s = Except.error () ∧ ∃ r, set st o b s v = Except.ok r := by
  refine ⟨?_, ⟨_, rfl⟩⟩
  unfold construct loadFromStorage
  rw [h]

/-- C2 amended, witnessed at a concrete throwing-getItem backend. -/
theorem backendErrors_amended_witness :
    construct throwingGetStore natOpts ([] : MemState) = Except.error () ∧
      ∃ r, set throwingGetStore natOpts ⟨0, []⟩ [] 5 = Except.ok r :=
  backendErrors_amended throwingGetStore natOpts [] ⟨0, []⟩ 5 rfl

/-- C3 counterexample: a binding whose serialize throws (and whose
deserialize succeeds): setRaw "7" reaches the un-guarded re-serialize of
the round-trip check and the exception propagates out of setRaw. The claim
asserts no user-function throw ever escapes a public operation. -/
theorem setRaw_serializeThrow_propagates :
    setRaw memStore failSerOpts ⟨0, []⟩ [] "7" = Except.error () :=
  rfl

/-- Normal completion of a possibly-throwing computation. -/
def isOkB {α : Type} : JS α → Bool
  | Except.ok _ => true
  | Except.error _ => false

/-- Normal completion gives a result value. -/
theorem exists_ok_of_isOkB {α : Type} {e : JS α} (h : isOkB e = true) :
    ∃ r, e = Except.ok r := by
  cases e with
  | ok a => exact ⟨a, rfl⟩
  | error e => simp [isOkB] at h

/-- Helper: on the never-throwing in-memory backend, the construction load
never throws, whatever the user codec and migrate do. -/
theorem loadFromStorage_memStore_ok (o : BindValueOptions T) (s : MemState) :
    ∃ r, loadFromStorage memStore o s = Except.ok r := by
  unfold loadFromStorage
  repeat' split
  all_goals simp_all [memStore]

/-- C3 amended: deserialize and migrate throws never escape construction,
set or getRaw on a non-throwing backend, and setRaw never throws when
serialize is total; but (per the counterexample) setRaw does propagate a
serialize throw from its round-trip check. -/
theorem defensiveWrapping_amended (o : BindValueOptions T) (b : Binding T)
    (s : MemState) (v : T) (raw : String) :
    (∃ r, construct memStore o s = Except.ok r) ∧
      (∃ r, set memStore o b s v = Except.ok r) ∧
      (∃ r, getRaw memStore o s = Except.ok r) ∧
      ((∀ t, ∃ str, o.serialize t = Except.ok str) →
        ∃ r, setRaw memStore o b s raw = Except.ok r) := by
  refine ⟨?_, ⟨_, rfl⟩, ⟨_, rfl⟩, ?_⟩
  · obtain ⟨r, hr⟩ := loadFromStorage_memStore_ok o s
    exact ⟨_, by unfold construct; rw [hr]⟩
  · intro hser
    choose f hf using hser
    apply exists_ok_of_isOkB
    unfold setRaw
    simp only [hf]
    repeat' split
    all_goals simp_all [memStore, isOkB]

/-- C3 amended, witnessed at the concrete Nat binding with a total decimal
codec. -/
theorem defensiveWrapping_amended_witness :
    (∃ r, construct memStore natOpts ([] : MemState) = Except.ok r) ∧
      (∃ r, set memStore natOpts ⟨0, []⟩ [] 5 = Except.ok r) ∧
      (∃ r, getRaw memStore natOpts ([] : MemState) = Except.ok r) ∧
      (∃ r, setRaw memStore natOpts ⟨0, []⟩ [] "7" = Except.ok r) := by
  obtain ⟨h1, h2, h3, h4⟩ :=
    defensiveWrapping_amended natOpts ⟨0, []⟩ [] 5 "7"
  exact ⟨h1, h2, h3, h4 (fun t => ⟨natToStr t, rfl⟩)⟩

/-- C5 counterexample: a binding whose version is the defined-but-empty
string: the raw value "abc" does not start with NUL, yet setRaw mutates the
cache, writes the store and would notify — because the version gate runs
only under JS truthiness and the empty string is falsy. The claim asserts
no mutation for every binding with a defined version. -/
theorem setRaw_emptyVersion_mutates :
    setRaw memStore { strOpts with version := some "" } ⟨"d", []⟩ [] "abc" =
      Except.ok (⟨"abc", []⟩, [("k", "abc")], []) :=
  rfl

/-- C5 amended: for every binding with a non-empty version, a raw value
that does not start with NUL, or splits into fewer than three NUL parts,
or whose part 1 differs from the version, leaves the cache, the store and
the subscribers untouched. -/
theorem setRaw_rejects_badEnvelope (st : StoreOps σ) (o : BindValueOptions T)
    (b : Binding T) (s : σ) (raw : String) (ver : String)
    (hv : o.version = some ver) (hne : ver ≠ "")
    (hbad : startsWithNul raw = false ∨ (splitNul raw).length < 3 ∨
      (splitNul raw).getD 1 "" ≠ ver) :
    setRaw st o b s raw = Except.ok (b, s, []) := by
  have hpay : extractPayload o.version raw = none := by
    rw [hv]
    unfold extractPayload
    have htr : truthy (some ver) = true := by
      simp [truthy]
      exact hne
    rw [htr]
    simp only [if_true, Option.getD]
    rcases hbad with h1 | h2 | h3
    · simp [h1]
    · by_cases h1 : startsWithNul raw
      · simp [h1, h2]
      · simp [h1]
    · by_cases h1 : startsWithNul raw
      · by_cases h2 : (splitNul raw).length < 3
        · simp [h1, h2]
        · simp [h1, h2]
          simpa [List.getD_eq_getElem?_getD] using h3
      · simp [h1]
  unfold setRaw
  rw [hpay]

/-- C5 amended, witnessed: version 2.0 rejects a raw value carrying the 1.0
envelope. -/
theorem setRaw_rejects_badEnvelope_witness :
    setRaw memStore { natOpts with version := some "2.0" } ⟨0, []⟩ []
        "\x001.0\x00payload" =
      Except.ok (⟨0, []⟩, [], []) :=
  setRaw_rejects_badEnvelope memStore { natOpts with version := some "2.0" }
    ⟨0, []⟩ [] "\x001.0\x00payload" "2.0" rfl (by decide)
    (Or.inr (Or.inr (by decide)))

/-- C6: when the stored raw value's parsed version equals the binding's
version but deserialize throws on the payload, construction caches the
default value and leaves the store — including the invalid raw string —
completely unchanged (no purge). -/
theorem deserializeFail_keepsStore (st : StoreOps σ) (o : BindValueOptions T)
    (s : σ) (raw : String)
    (hget : st.getItem s o.key = Except.ok (some raw))
    (hver : (parseEnvelope raw).1 = o.version)
    (hdes : o.deserialize (parseEnvelope raw).2 = Except.error ()) :
    construct st o s = Except.ok (⟨o.defaultValue, []⟩, s) := by
  unfold construct loadFromStorage
  simp [hget, hver, hdes]

/-- C6 witnessed: an unversioned binding whose deserialize always throws,
over a store holding "bad" at the key. -/
theorem deserializeFail_keepsStore_witness :
    construct memStore
        { natOpts with deserialize := fun _ => Except.error () }
        [("k", "bad")] =
      Except.ok (⟨0, []⟩, [("k", "bad")]) :=
  deserializeFail_keepsStore memStore
    { natOpts with deserialize := fun _ => Except.error () }
    [("k", "bad")] "bad" rfl rfl rfl

/-- C7: when serialize throws on the value being set, set still returns
normally, the cache (hence getValue) holds the new value, the store state
is exactly what it was before the call, and every currently registered
subscriber is called once with the new value. -/
theorem serializeFail_keepsCache_skipsStore (st : StoreOps σ)
    (o : BindValueOptions T) (b : Binding T) (s : σ) (v : T)
    (hser : o.serialize v = Except.error ()) :
    set st o b s v =
      Except.ok (⟨v, b.subscribers⟩, s,
        b.subscribers.map (fun i => (i, v))) ∧
      getValue (⟨v, b.subscribers⟩ : Binding T) = v := by
  constructor
  · unfold set saveToStorage saveAttempt
    rw [hser]
    rfl
  · rfl

/-- C7 witnessed: a throwing serialize, one subscriber, a pre-existing
store entry that survives the call. -/
theorem serializeFail_keepsCache_skipsStore_witness :
    set memStore failSerOpts ⟨0, [7]⟩ [("k", "old")] 5 =
      Except.ok (⟨5, [7]⟩, [("k", "old")], [(7, 5)]) ∧
      getValue (⟨5, [7]⟩ : Binding Nat) = 5 :=
  serializeFail_keepsCache_skipsStore memStore failSerOpts ⟨0, [7]⟩
    [("k", "old")] 5 rfl

/-- Helper: notifying a subscriber list that does not contain cb produces
no call addressed to cb. -/
theorem filter_calls_not_mem (cb : Nat) (x : T) (l : List Nat) (h : cb ∉ l) :
    (l.map (fun i => (i, x))).filter (fun c => c.1 == cb) = [] := by
  induction l with
  | nil => rfl
  | cons a t ih =>
    simp only [List.mem_cons, not_or] at h
    have hne : (a == cb) = false :=
      beq_eq_false_iff_ne.mpr (fun hc => h.1 hc.symm)
    simp [List.filter_cons, hne, ih h.2]

/-- C8: subscribe cb performs no call at registration time; a single
subsequent set x completes with a call list — delivered before set
returns — in which cb occurs exactly once, with argument x. -/
theorem subscriptionTiming (st : StoreOps σ) (o : BindValueOptions T)
    (b : Binding T) (s : σ) (cb : Nat) (x : T)
    (hfresh : cb ∉ b.subscribers) :
    (subscribe b cb).2 = [] ∧
      ∃ b' s' calls,
        set st o (subscribe b cb).1 s x = Except.ok (b', s', calls) ∧
          calls.filter (fun c => c.1 == cb) = [(cb, x)] := by
  refine ⟨rfl, _, _, _, rfl, ?_⟩
  unfold subscribe notifySubscribers
  simp only [if_neg hfresh]
  simp [List.filter_append, filter_calls_not_mem cb x b.subscribers hfresh]

/-- C8 witnessed: a fresh binding, one subscription, one set. -/
theorem subscriptionTiming_witness :
    (subscribe (⟨0, []⟩ : Binding Nat) 7).2 = [] ∧
      ∃ b' s' calls,
        set memStore natOpts (subscribe (⟨0, []⟩ : Binding Nat) 7).1 [] 5 =
            Except.ok (b', s', calls) ∧
          calls.filter (fun c => c.1 == 7) = [(7, 5)] :=
  subscriptionTiming memStore natOpts ⟨0, []⟩ [] 7 5 (by decide)

/-- C9: version mismatch, migrate succeeds, but serialize throws while
persisting the migrated value: construction still caches the migrated
value while the store keeps the stale envelope unchanged — cache and
store silently disagree from construction on. -/
theorem migrateOk_serializeFail_staleStore (st : StoreOps σ)
    (o : BindValueOptions T) (s : σ) (raw : String)
    (mig : String → Option String → JS T) (mv : T)
    (hget : st.getItem s o.key = Except.ok (some raw))
    (hver : (parseEnvelope raw).1 ≠ o.version)
    (hmig : o.migrate = some mig)
    (hmv : mig (parseEnvelope raw).2 (parseEnvelope raw).1 = Except.ok mv)
    (hser : o.serialize mv = Except.error ()) :
    construct st o s = Except.ok (⟨mv, []⟩, s) := by
  unfold construct loadFromStorage saveToStorage saveAttempt
  simp [hget, hver, hmig, hmv, hser]

/-- C9 witnessed: a stale unversioned payload, an identity-ish migrate and
a throwing serialize leave cache 100 and the store still holding the old
raw string. -/
theorem migrateOk_serializeFail_staleStore_witness :
    construct memStore
        { failSerOpts with
          version := some "1.0",
          migrate := some (fun old _ => Except.ok (strToNat old)) }
        [("k", "100")] =
      Except.ok (⟨100, []⟩, [("k", "100")]) :=
  migrateOk_serializeFail_staleStore memStore
    { failSerOpts with
      version := some "1.0",
      migrate := some (fun old _ => Except.ok (strToNat old)) }
    [("k", "100")] "100" (fun old _ => Except.ok (strToNat old)) 100
    rfl (by decide) rfl rfl rfl

/-- C10 counterexample: version is the empty string and serialize produces
a payload that itself begins with two NULs. set does store the bare
payload, but a fresh binding with the same configuration then parses that
payload as an envelope with empty version tag, takes the version-MATCH
branch, deserializes, and leaves the key in place — not the
version-mismatch branch with default value and key removal the claim
asserts. -/
theorem emptyVersion_nulPayload_matches :
    set memStore
        { strOpts with
          version := some "",
          serialize := fun s => Except.ok ("\x00\x00" ++ s) }
        ⟨"d", []⟩ [] "x" =
      Except.ok (⟨"x", []⟩, [("k", "\x00\x00x")], []) ∧
    construct memStore
        { strOpts with
          version := some "",
          serialize := fun s => Except.ok ("\x00\x00" ++ s) }
        [("k", "\x00\x00x")] =
      Except.ok (⟨"x", []⟩, [("k", "\x00\x00x")]) :=
  ⟨rfl, rfl⟩

/-- C10 amended: with version the empty string, set stores the bare
serialized payload with no envelope and setRaw behaves exactly as with no
version at all; and a fresh binding with the same configuration and no
migrate falls into the version-mismatch branch — caching the default and
removing the key — provided the stored bare payload does not itself parse
as a NUL envelope whose version field is the empty string. -/
theorem emptyVersion_amended (st : StoreOps σ) (o : BindValueOptions T)
    (b : Binding T) (s s2 s3 s4 : σ) (v : T) (ser : String)
    (hv : o.version = some "") (hm : o.migrate = none)
    (hser : o.serialize v = Except.ok ser)
    (hset : st.setItem s o.key ser = Except.ok s2)
    (hget : st.getItem s3 o.key = Except.ok (some ser))
    (hrm : st.removeItem s3 o.key = Except.ok s4)
    (hnoenv : (parseEnvelope ser).1 ≠ some "") :
    set st o b s v =
      Except.ok (⟨v, b.subscribers⟩, s2,
        b.subscribers.map (fun i => (i, v))) ∧
      (∀ raw, setRaw st o b s raw =
        setRaw st { o with version := none } b s raw) ∧
      construct st o s3 = Except.ok (⟨o.defaultValue, []⟩, s4) := by
  refine ⟨?_, ?_, ?_⟩
  · unfold set saveToStorage saveAttempt
    rw [hser, hv]
    simp [wrap, hset]
    rfl
  · intro raw
    unfold setRaw extractPayload
    rw [hv]
    simp [truthy, wrap]
  · unfold construct loadFromStorage
    simp [hget, hv, hm, hnoenv, hrm]

/-- C10 amended, witnessed with the identity codec (whose payloads never
start with NUL here). -/
theorem emptyVersion_amended_witness :
    set memStore { strOpts with version := some "" } ⟨"d", []⟩ [] "x" =
      Except.ok (⟨"x", []⟩, [("k", "x")], []) ∧
      (∀ raw, setRaw memStore { strOpts with version := some "" }
          ⟨"d", []⟩ [] raw =
        setRaw memStore strOpts ⟨"d", []⟩ [] raw) ∧
      construct memStore { strOpts with version := some "" } [("k", "x")] =
        Except.ok (⟨"d", []⟩, []) :=
  emptyVersion_amended memStore { strOpts with version := some "" }
    ⟨"d", []⟩ [] [("k", "x")] [("k", "x")] [] "x" "x"
    rfl rfl rfl rfl rfl rfl (by decide)

end Kvozy
